import Mathlib

/-!
Shallow embedding of the sensorguard typed fault-algebra and classification
pipeline (backend/engine/tna.py, backend/engine/sensor_tna.py,
backend/engine/fusion.py, backend/engine/window_policy.py,
backend/alert_engine.py, backend/fault_aggregator.py), together with theorems
checking the natural-language specification against the code.

Real number payloads are modelled as rationals, timestamps as rationals
(seconds).  Fallible branches (the trailing TypeError raises of the algebra
operations) are modelled as Option-valued functions returning none.
-/

namespace SensorGuard

namespace Tna

/-- Elements of the typed nullity algebra S of tna.py: AbsZero, MeasZero,
ResToken and Real wrappers.  Real payloads are rationals. -/
inductive S : Type where
  | absZero : S
  | measZero : S
  | resToken : S
  | real (v : ℚ) : S
  deriving DecidableEq, Repr

namespace S

/-- Mirrors the isinstance(x, AbsZero) check. -/
def isAbsZero : S → Bool
  | absZero => true
  | _ => false

/-- Mirrors the isinstance(x, MeasZero) check. -/
def isMeasZero : S → Bool
  | measZero => true
  | _ => false

/-- Mirrors the isinstance(x, ResToken) check. -/
def isResToken : S → Bool
  | resToken => true
  | _ => false

/-- Mirrors the isinstance(x, Real) check. -/
def isReal : S → Bool
  | real _ => true
  | _ => false

/-- Mirrors isinstance(x, Real) and x.v == 0. -/
def isRealZero : S → Bool
  | real v => decide (v = 0)
  | _ => false

/-- Mirrors isinstance(x, Real) and x.v != 0. -/
def isRealNonzero : S → Bool
  | real v => decide (v ≠ 0)
  | _ => false

end S

open S

/-- Extended addition of tna.add, following the branch order of the source
(A5, A2, A4, A3, A1); the trailing TypeError raise is modelled as none. -/
def addE (x y : S) : Option S :=
  if x.isResToken || y.isResToken then some S.resToken
  else if x.isAbsZero then some y
  else if y.isAbsZero then some x
  else if x.isMeasZero && y.isMeasZero then some S.measZero
  else if x.isMeasZero && y.isReal then some y
  else if x.isReal && y.isMeasZero then some x
  else
    match x, y with
    | S.real a, S.real b => some (S.real (a + b))
    | _, _ => none

/-- Total view of tna.add (the TypeError branch is proved unreachable). -/
def add (x y : S) : S := (addE x y).getD S.absZero

/-- Extended multiplication of tna.mul, following the branch order of the
source (M2, M4, M5, M3, M1); the trailing TypeError raise is none. -/
def mulE (x y : S) : Option S :=
  if x.isAbsZero || y.isAbsZero then some S.absZero
  else if x.isRealZero && y.isMeasZero then some S.absZero
  else if y.isRealZero && x.isMeasZero then some S.absZero
  else if x.isResToken then some y
  else if y.isResToken then some x
  else if x.isMeasZero && y.isMeasZero then some S.measZero
  else if x.isMeasZero && y.isRealNonzero then some S.measZero
  else if y.isMeasZero && x.isRealNonzero then some S.measZero
  else
    match x, y with
    | S.real a, S.real b => some (S.real (a * b))
    | _, _ => none

/-- Total view of tna.mul. -/
def mul (x y : S) : S := (mulE x y).getD S.absZero

/-- Extended division of tna.div, following the branch order of the source
(D2, D5, D4, D6, the four D3 sub-branches flattened in order, D7, D8, D1,
D9, final AbsZero catch); the trailing TypeError raise is none. -/
def divE (x y : S) : Option S :=
  if y.isAbsZero then some S.absZero
  else if y.isResToken then some x
  else if x.isMeasZero && y.isMeasZero then some S.resToken
  else if x.isRealZero && y.isRealZero then some S.absZero
  else if y.isMeasZero && x.isRealZero then some S.absZero
  else if y.isMeasZero && x.isAbsZero then some S.absZero
  else if y.isMeasZero && x.isRealNonzero then some S.measZero
  else if y.isMeasZero && x.isResToken then some S.measZero
  else if x.isMeasZero && y.isRealNonzero then some S.measZero
  else if x.isMeasZero && y.isRealZero then some S.absZero
  else if x.isResToken && y.isRealNonzero then some S.resToken
  else if x.isResToken && y.isRealZero then some S.absZero
  else
    match x, y with
    | S.real a, S.real b => if b ≠ 0 then some (S.real (a / b)) else some S.measZero
    | S.absZero, _ => some S.absZero
    | _, _ => none

/-- Total view of tna.div. -/
def div (x y : S) : S := (divE x y).getD S.absZero

/-- COUNT_S of tna.count_s: number of eligible (non-AbsZero) entries. -/
def count_s (M : List S) : ℕ := (M.filter (fun x => !x.isAbsZero)).length

/-- SUM_S of tna.sum_s: fold of extended addition over eligible entries,
starting from the first of them, or AbsZero when no entry is eligible. -/
def sum_s (M : List S) : S :=
  match M.filter (fun x => !x.isAbsZero) with
  | [] => S.absZero
  | e :: rest => rest.foldl add e

/-- AVG_S of tna.avg_s: typed average with eligibility semantics. -/
def avg_s (M : List S) : S :=
  let k := count_s M
  if k = 0 then S.absZero else div (sum_s M) (S.real k)

section EquationLemmas

@[simp] theorem add_absZero_left (y : S) : add S.absZero y = y := by
  cases y <;> rfl

@[simp] theorem add_absZero_right (x : S) : add x S.absZero = x := by
  cases x <;> rfl

@[simp] theorem add_resToken_left (y : S) : add S.resToken y = S.resToken := by
  cases y <;> rfl

@[simp] theorem add_resToken_right (x : S) : add x S.resToken = S.resToken := by
  cases x <;> rfl

@[simp] theorem add_measZero_measZero : add S.measZero S.measZero = S.measZero := rfl

@[simp] theorem add_measZero_real (a : ℚ) : add S.measZero (S.real a) = S.real a := rfl

@[simp] theorem add_real_measZero (a : ℚ) : add (S.real a) S.measZero = S.real a := rfl

@[simp] theorem add_real_real (a b : ℚ) : add (S.real a) (S.real b) = S.real (a + b) := rfl

@[simp] theorem mul_absZero_left (y : S) : mul S.absZero y = S.absZero := by
  cases y <;> rfl

@[simp] theorem mul_absZero_right (x : S) : mul x S.absZero = S.absZero := by
  cases x <;> rfl

@[simp] theorem mul_resToken_left (y : S) : mul S.resToken y = y := by
  cases y with
  | real v =>
    by_cases h : v = 0 <;>
      simp [mul, mulE, S.isAbsZero, S.isMeasZero, S.isResToken, S.isRealZero,
        S.isRealNonzero, S.isReal, h]
  | _ => rfl

@[simp] theorem mul_resToken_right (x : S) : mul x S.resToken = x := by
  cases x with
  | real v =>
    by_cases h : v = 0 <;>
      simp [mul, mulE, S.isAbsZero, S.isMeasZero, S.isResToken, S.isRealZero,
        S.isRealNonzero, S.isReal, h]
  | _ => rfl

@[simp] theorem mul_measZero_measZero : mul S.measZero S.measZero = S.measZero := rfl

@[simp] theorem mul_real_measZero (a : ℚ) :
    mul (S.real a) S.measZero = if a = 0 then S.absZero else S.measZero := by
  by_cases h : a = 0 <;>
    simp [mul, mulE, S.isAbsZero, S.isMeasZero, S.isResToken, S.isRealZero,
      S.isRealNonzero, S.isReal, h]

@[simp] theorem mul_measZero_real (a : ℚ) :
    mul S.measZero (S.real a) = if a = 0 then S.absZero else S.measZero := by
  by_cases h : a = 0 <;>
    simp [mul, mulE, S.isAbsZero, S.isMeasZero, S.isResToken, S.isRealZero,
      S.isRealNonzero, S.isReal, h]

@[simp] theorem mul_real_real (a b : ℚ) : mul (S.real a) (S.real b) = S.real (a * b) := by
  by_cases ha : a = 0 <;> by_cases hb : b = 0 <;>
    simp [mul, mulE, S.isAbsZero, S.isMeasZero, S.isResToken, S.isRealZero,
      S.isRealNonzero, S.isReal, ha, hb]

@[simp] theorem div_absZero_right (x : S) : div x S.absZero = S.absZero := by
  cases x <;> rfl

@[simp] theorem div_resToken_right (x : S) : div x S.resToken = x := by
  cases x <;> rfl

@[simp] theorem div_measZero_measZero : div S.measZero S.measZero = S.resToken := rfl

@[simp] theorem div_absZero_measZero : div S.absZero S.measZero = S.absZero := rfl

@[simp] theorem div_resToken_measZero : div S.resToken S.measZero = S.measZero := rfl

@[simp] theorem div_real_measZero (a : ℚ) :
    div (S.real a) S.measZero = if a = 0 then S.absZero else S.measZero := by
  by_cases h : a = 0 <;>
    simp [div, divE, S.isAbsZero, S.isMeasZero, S.isResToken, S.isRealZero,
      S.isRealNonzero, S.isReal, h]

@[simp] theorem div_measZero_real (b : ℚ) :
    div S.measZero (S.real b) = if b = 0 then S.absZero else S.measZero := by
  by_cases h : b = 0 <;>
    simp [div, divE, S.isAbsZero, S.isMeasZero, S.isResToken, S.isRealZero,
      S.isRealNonzero, S.isReal, h]

@[simp] theorem div_resToken_real (b : ℚ) :
    div S.resToken (S.real b) = if b = 0 then S.absZero else S.resToken := by
  by_cases h : b = 0 <;>
    simp [div, divE, S.isAbsZero, S.isMeasZero, S.isResToken, S.isRealZero,
      S.isRealNonzero, S.isReal, h]

@[simp] theorem div_absZero_real (b : ℚ) : div S.absZero (S.real b) = S.absZero := by
  by_cases h : b = 0 <;>
    simp [div, divE, S.isAbsZero, S.isMeasZero, S.isResToken, S.isRealZero,
      S.isRealNonzero, S.isReal, h]

@[simp] theorem div_real_real (a b : ℚ) :
    div (S.real a) (S.real b) =
      if b ≠ 0 then S.real (a / b)
      else if a = 0 then S.absZero else S.measZero := by
  by_cases hb : b = 0 <;> by_cases ha : a = 0 <;>
    simp [div, divE, S.isAbsZero, S.isMeasZero, S.isResToken, S.isRealZero,
      S.isRealNonzero, S.isReal, ha, hb]

end EquationLemmas

section Totality

theorem addE_isSome (x y : S) : (addE x y).isSome := by
  cases x <;> cases y <;> rfl

theorem mulE_isSome (x y : S) : (mulE x y).isSome := by
  rcases x with _ | _ | _ | a <;> rcases y with _ | _ | _ | b
  all_goals try rfl
  all_goals
    solve
    | (by_cases ha : a = 0 <;> by_cases hb : b = 0 <;>
        simp [mulE, S.isAbsZero, S.isMeasZero, S.isResToken, S.isRealZero,
          S.isRealNonzero, S.isReal, ha, hb])
    | (by_cases hb : b = 0 <;>
        simp [mulE, S.isAbsZero, S.isMeasZero, S.isResToken, S.isRealZero,
          S.isRealNonzero, S.isReal, hb])
    | (by_cases ha : a = 0 <;>
        simp [mulE, S.isAbsZero, S.isMeasZero, S.isResToken, S.isRealZero,
          S.isRealNonzero, S.isReal, ha])

theorem divE_isSome (x y : S) : (divE x y).isSome := by
  rcases x with _ | _ | _ | a <;> rcases y with _ | _ | _ | b
  all_goals try rfl
  all_goals
    solve
    | (by_cases ha : a = 0 <;> by_cases hb : b = 0 <;>
        simp [divE, S.isAbsZero, S.isMeasZero, S.isResToken, S.isRealZero,
          S.isRealNonzero, S.isReal, ha, hb])
    | (by_cases hb : b = 0 <;>
        simp [divE, S.isAbsZero, S.isMeasZero, S.isResToken, S.isRealZero,
          S.isRealNonzero, S.isReal, hb])
    | (by_cases ha : a = 0 <;>
        simp [divE, S.isAbsZero, S.isMeasZero, S.isResToken, S.isRealZero,
          S.isRealNonzero, S.isReal, ha])

end Totality

section AlgebraLaws

theorem add_comm_total (x y : S) : add x y = add y x := by
  rcases x with _ | _ | _ | a <;> rcases y with _ | _ | _ | b <;> simp
  ring

theorem mul_comm_total (x y : S) : mul x y = mul y x := by
  rcases x with _ | _ | _ | a <;> rcases y with _ | _ | _ | b <;> simp
  ring

theorem add_assoc_total (x y z : S) : add (add x y) z = add x (add y z) := by
  rcases x with _ | _ | _ | a <;> rcases y with _ | _ | _ | b <;>
    rcases z with _ | _ | _ | c <;> simp
  ring

theorem mul_assoc_total (x y z : S) : mul (mul x y) z = mul x (mul y z) := by
  rcases x with _ | _ | _ | a <;> rcases y with _ | _ | _ | b <;>
    rcases z with _ | _ | _ | c <;> simp [mul_eq_zero]
  all_goals try ring1
  all_goals split_ifs <;> simp_all [mul_eq_zero]

end AlgebraLaws

/-- C2: the extended division div on S satisfies each entry of the specified
table: division by AbsZero gives AbsZero, division by ResToken gives the
dividend, MeasZero over MeasZero gives ResToken, Real(0)/Real(0) gives
AbsZero, nonzero Real over MeasZero gives MeasZero, AbsZero over MeasZero
gives AbsZero, MeasZero and ResToken over Real split on the divisor payload
being zero, Real over nonzero Real divides, nonzero Real over Real(0) gives
MeasZero, and AbsZero over any Real gives AbsZero. -/
theorem C2_div_table :
    (∀ x : S, div x S.absZero = S.absZero) ∧
    (∀ x : S, div x S.resToken = x) ∧
    div S.measZero S.measZero = S.resToken ∧
    div (S.real 0) (S.real 0) = S.absZero ∧
    (∀ v : ℚ, v ≠ 0 → div (S.real v) S.measZero = S.measZero) ∧
    div S.absZero S.measZero = S.absZero ∧
    (∀ v : ℚ, v ≠ 0 → div S.measZero (S.real v) = S.measZero) ∧
    div S.measZero (S.real 0) = S.absZero ∧
    (∀ v : ℚ, v ≠ 0 → div S.resToken (S.real v) = S.resToken) ∧
    div S.resToken (S.real 0) = S.absZero ∧
    (∀ a b : ℚ, b ≠ 0 → div (S.real a) (S.real b) = S.real (a / b)) ∧
    (∀ a : ℚ, a ≠ 0 → div (S.real a) (S.real 0) = S.measZero) ∧
    (∀ v : ℚ, div S.absZero (S.real v) = S.absZero) := by
  refine ⟨fun x => by simp, fun x => by simp, by simp, by simp,
    fun v hv => by simp [hv], by simp, fun v hv => by simp [hv], by simp,
    fun v hv => by simp [hv], by simp, fun a b hb => by simp [hb],
    fun a ha => by simp [ha], fun v => by simp⟩

/-- C2 witness: the table entries with nonzero-payload hypotheses evaluated
at concrete inputs. -/
theorem C2_div_table_witness :
    div (S.real 5) S.measZero = S.measZero ∧
    div S.measZero (S.real 5) = S.measZero ∧
    div S.resToken (S.real 5) = S.resToken ∧
    div (S.real 6) (S.real 3) = S.real 2 ∧
    div (S.real 5) (S.real 0) = S.measZero :=
  ⟨C2_div_table.2.2.2.2.1 5 (by norm_num),
   C2_div_table.2.2.2.2.2.2.1 5 (by norm_num),
   C2_div_table.2.2.2.2.2.2.2.2.1 5 (by norm_num),
   by
     have h := C2_div_table.2.2.2.2.2.2.2.2.2.2.1 6 3 (by norm_num)
     rw [h]
     norm_num,
   C2_div_table.2.2.2.2.2.2.2.2.2.2.2.1 5 (by norm_num)⟩

/-- C8: the extended addition and multiplication have AbsZero and ResToken
as identities and are commutative and associative over the whole domain,
arbitrary Real payloads included. -/
theorem C8_add_mul_laws :
    (∀ x : S, add x S.absZero = x) ∧
    (∀ x : S, mul x S.resToken = x) ∧
    (∀ x y : S, add x y = add y x) ∧
    (∀ x y : S, mul x y = mul y x) ∧
    (∀ x y z : S, add (add x y) z = add x (add y z)) ∧
    (∀ x y z : S, mul (mul x y) z = mul x (mul y z)) :=
  ⟨add_absZero_right, mul_resToken_right, add_comm_total, mul_comm_total,
    add_assoc_total, mul_assoc_total⟩

/-- C10: all three operations are total over the four kinds (the trailing
TypeError branch, modelled as none, is unreachable), and the combination the
division table does not list evaluates to divE ResToken MeasZero = MeasZero. -/
theorem C10_ops_total :
    (∀ x y : S, (addE x y).isSome) ∧
    (∀ x y : S, (mulE x y).isSome) ∧
    (∀ x y : S, (divE x y).isSome) ∧
    divE S.resToken S.measZero = some S.measZero ∧
    div S.resToken S.measZero = S.measZero :=
  ⟨addE_isSome, mulE_isSome, divE_isSome, rfl, rfl⟩

/-- C7: count_s counts the non-AbsZero elements, sum_s is the left fold of
the extended addition over the non-AbsZero elements in order (AbsZero when
there are none), avg_s divides sum_s by Real(count_s) and is AbsZero when
count_s is zero; with the two concrete three-element examples. -/
theorem C7_aggregates :
    (∀ M : List S, count_s M = (M.filter (fun x => x ≠ S.absZero)).length) ∧
    (∀ M : List S, sum_s M = (M.filter (fun x => x ≠ S.absZero)).foldl add S.absZero) ∧
    (∀ M : List S, count_s M = 0 → avg_s M = S.absZero) ∧
    (∀ M : List S, count_s M ≠ 0 → avg_s M = div (sum_s M) (S.real (count_s M))) ∧
    avg_s [S.real 10, S.real 10, S.measZero] = S.real (20 / 3) ∧
    avg_s [S.real 10, S.real 10, S.absZero] = S.real 10 := by
  have hfil : ∀ M : List S,
      M.filter (fun x => !x.isAbsZero) = M.filter (fun x => x ≠ S.absZero) := by
    intro M
    apply List.filter_congr
    intro x _
    cases x <;> rfl
  refine ⟨?_, ?_, ?_, ?_,
    by norm_num [avg_s, count_s, sum_s, List.filter, S.isAbsZero],
    by norm_num [avg_s, count_s, sum_s, List.filter, S.isAbsZero]⟩
  · intro M; rw [count_s, hfil]
  · intro M
    rw [sum_s, hfil]
    cases M.filter (fun x => x ≠ S.absZero) with
    | nil => rfl
    | cons e rest => simp
  · intro M h; simp [avg_s, h]
  · intro M h; simp [avg_s, h]

/-- C7 witness: the aggregate laws instantiated at a concrete list. -/
theorem C7_aggregates_witness :
    avg_s [S.absZero] = S.absZero ∧
    avg_s [S.real 4, S.real 2] = div (sum_s [S.real 4, S.real 2])
      (S.real (count_s [S.real 4, S.real 2])) :=
  ⟨C7_aggregates.2.2.1 [S.absZero] (by decide),
   C7_aggregates.2.2.2.1 [S.real 4, S.real 2] (by decide)⟩

end Tna

namespace SensorTna

open Tna

/-- Raw input of sensor_tna.classify_raw: a missing reading (None), a NaN
float, or a finite numeric value (modelled as a rational). -/
inductive RawValue : Type where
  | missing : RawValue
  | nan : RawValue
  | val (q : ℚ) : RawValue
  deriving DecidableEq

/-- Per-sensor configuration of sensor_tna.SensorConfig; the max_valid
default float infinity is modelled as the top element of WithTop. -/
structure SensorConfig where
  sensor_id : String
  noise_floor : ℚ := 0
  max_valid : WithTop ℚ := ⊤
  weight : ℚ := 1

/-- TypedReading of sensor_tna.py. -/
structure TypedReading where
  sensor_id : String
  s : S
  timestamp : ℚ
  source : String
  raw_value : RawValue
  deriving DecidableEq

/-- Noise floor defaulting of classify_raw: config.noise_floor if config
else 0. -/
def noiseFloorOf : Option SensorConfig → ℚ
  | some c => c.noise_floor
  | none => 0

/-- Max-valid defaulting of classify_raw: config.max_valid if config else
float infinity. -/
def maxValidOf : Option SensorConfig → WithTop ℚ
  | some c => c.max_valid
  | none => ⊤

/-- classify_raw of sensor_tna.py: None or NaN gives AbsZero, magnitude
below the noise floor or above max_valid gives MeasZero, and every other
value gives Real carrying the value. -/
def classify_raw (sensor_id : String) (raw : RawValue) (timestamp : ℚ)
    (source : String) (config : Option SensorConfig) : TypedReading :=
  match raw with
  | RawValue.missing => ⟨sensor_id, S.absZero, timestamp, source, RawValue.missing⟩
  | RawValue.nan => ⟨sensor_id, S.absZero, timestamp, source, RawValue.nan⟩
  | RawValue.val q =>
    let nf := noiseFloorOf config
    let mv := maxValidOf config
    if |q| < nf ∨ mv < (↑|q| : WithTop ℚ) then
      ⟨sensor_id, S.measZero, timestamp, source, RawValue.val q⟩
    else
      ⟨sensor_id, S.real q, timestamp, source, RawValue.val q⟩

/-- C9: classify_raw is total (a value for every input, by construction) and
classifies in order: missing or NaN gives AbsZero; a value whose magnitude
is below the configured noise floor or outside the configured bound gives
MeasZero; every other value gives Real carrying the original number, with
the raw value preserved in the reading. -/
theorem C9_classify_raw (sensor_id : String) (raw : RawValue) (timestamp : ℚ)
    (source : String) (config : Option SensorConfig) :
    ((raw = RawValue.missing ∨ raw = RawValue.nan) →
      (classify_raw sensor_id raw timestamp source config).s = S.absZero) ∧
    (∀ q : ℚ, raw = RawValue.val q →
      (|q| < noiseFloorOf config ∨ maxValidOf config < (↑|q| : WithTop ℚ)) →
      (classify_raw sensor_id raw timestamp source config).s = S.measZero) ∧
    (∀ q : ℚ, raw = RawValue.val q →
      ¬(|q| < noiseFloorOf config ∨ maxValidOf config < (↑|q| : WithTop ℚ)) →
      (classify_raw sensor_id raw timestamp source config).s = S.real q) ∧
    (classify_raw sensor_id raw timestamp source config).raw_value = raw := by
  refine ⟨?_, ?_, ?_, ?_⟩
  · rintro (rfl | rfl) <;> rfl
  · rintro q rfl h
    simp [classify_raw, h]
  · rintro q rfl h
    simp [classify_raw, h]
  · cases raw with
    | missing => rfl
    | nan => rfl
    | val q =>
      by_cases h : |q| < noiseFloorOf config ∨ maxValidOf config < (↑|q| : WithTop ℚ) <;>
        simp [classify_raw, h]

/-- C9 witness: the three classification branches evaluated at concrete
inputs. -/
theorem C9_classify_raw_witness :
    (classify_raw "a" RawValue.missing 0 "SIM" none).s = S.absZero ∧
    (classify_raw "a" (RawValue.val (1/2)) 0 "SIM"
      (some { sensor_id := "a", noise_floor := 1 })).s = S.measZero ∧
    (classify_raw "a" (RawValue.val 5) 0 "SIM" none).s = S.real 5 :=
  ⟨(C9_classify_raw "a" RawValue.missing 0 "SIM" none).1 (Or.inl rfl),
   (C9_classify_raw "a" (RawValue.val (1/2)) 0 "SIM"
      (some { sensor_id := "a", noise_floor := 1 })).2.1 (1/2) rfl
      (by
        left
        simp only [noiseFloorOf]
        rw [abs_of_nonneg (by norm_num : (0:ℚ) ≤ 1/2)]
        norm_num),
   (C9_classify_raw "a" (RawValue.val 5) 0 "SIM" none).2.2.1 5 rfl
      (by norm_num [noiseFloorOf, maxValidOf])⟩

end SensorTna

namespace Fusion

open Tna SensorTna

/-- info_level of fusion.py. -/
def info_level : S → ℕ
  | S.absZero => 0
  | S.measZero => 1
  | S.real _ => 2
  | S.resToken => 3

/-- PairwiseResult of fusion.py. -/
structure PairwiseResult where
  sensor_a : String
  sensor_b : String
  ratio : S
  level : ℕ
  agreement : String
  deriving DecidableEq

/-- pairwise_consistency of fusion.py: the agreement label derives from the
type of the TNA ratio of the two readings. -/
def pairwise_consistency (a b : TypedReading) (eps : ℚ) : PairwiseResult :=
  let ratio := div a.s b.s
  let level := info_level ratio
  let agreement :=
    match ratio with
    | S.real v => if |v - 1| < eps then "AGREE" else "DISAGREE"
    | S.measZero => "INDETERMINATE"
    | S.absZero => "INAPPLICABLE"
    | S.resToken => "RESOLVED"
  ⟨a.sensor_id, b.sensor_id, ratio, level, agreement⟩

/-- all_pairwise of fusion.py: pairwise_consistency over the ordered index
pairs i < j of the reading list, in nested-loop order. -/
def all_pairwise (readings : List TypedReading) (eps : ℚ) : List PairwiseResult :=
  match readings with
  | [] => []
  | r :: rest => rest.map (fun b => pairwise_consistency r b eps) ++ all_pairwise rest eps

/-- SensorAlert of fusion.py. -/
structure SensorAlert where
  sensor_id : String
  tna_type : String
  alert : String
  is_optional : Bool
  deriving DecidableEq

/-- derive_sensor_alerts of fusion.py: per-sensor health from the TNA
classification of each reading. -/
def derive_sensor_alerts (readings : List TypedReading) (optional_ids : List String) :
    List SensorAlert :=
  readings.map fun r =>
    let is_opt := decide (r.sensor_id ∈ optional_ids)
    match r.s with
    | S.absZero => ⟨r.sensor_id, "0_bm", "OFFLINE", is_opt⟩
    | S.measZero => ⟨r.sensor_id, "0_m", "DEGRADED", is_opt⟩
    | S.real _ => ⟨r.sensor_id, "Real", "OK", is_opt⟩
    | S.resToken => ⟨r.sensor_id, "ResToken", "UNKNOWN", is_opt⟩

/-- FusionResult of fusion.py. -/
structure FusionResult where
  fused_value : S
  eligible_count : ℕ
  total_count : ℕ
  definite_count : ℕ
  fused_sum : S
  pairwise : List PairwiseResult
  sensor_alerts : List SensorAlert
  confidence : ℚ
  redundancy : ℚ
  group_mode : String
  reasons : List String

/-- fuse_group of fusion.py: TNA aggregation, derived metrics, per-sensor
alerts, the insufficient-eligibility early return, and the priority-ordered
mode decision over required and semi-required pairwise results. -/
def fuse_group (readings : List TypedReading) (required_eligible : ℕ)
    (agree_eps : ℚ) (max_disagree : ℕ) (optional_sensors : List String) :
    FusionResult :=
  let optional := optional_sensors
  let typed_values := readings.map (·.s)
  let eligible_count := count_s typed_values
  let total_count := typed_values.length
  let fused_sum := sum_s typed_values
  let fused_value := avg_s typed_values
  let definite_count := (typed_values.filter (fun x => x.isReal)).length
  let redundancy : ℚ := if total_count > 0 then (eligible_count : ℚ) / total_count else 0
  let confidence : ℚ := if total_count > 0 then (eligible_count : ℚ) / total_count else 0
  let sensor_alerts := derive_sensor_alerts readings optional
  if eligible_count < required_eligible then
    { fused_value := fused_value, eligible_count := eligible_count,
      total_count := total_count, definite_count := definite_count,
      fused_sum := fused_sum, pairwise := [], sensor_alerts := sensor_alerts,
      confidence := confidence, redundancy := redundancy,
      group_mode := "FAILOVER",
      reasons := [s!"INSUFFICIENT_ELIGIBLE({eligible_count}/{required_eligible})"] }
  else
    let pairwise := all_pairwise readings agree_eps
    let required_pairs := pairwise.filter
      (fun p => !optional.contains p.sensor_a && !optional.contains p.sensor_b)
    let semi_required_pairs := pairwise.filter
      (fun p => !optional.contains p.sensor_a || !optional.contains p.sensor_b)
    let disagree_count := (required_pairs.filter (fun p => p.agreement == "DISAGREE")).length
    let semi_disagree := (semi_required_pairs.filter (fun p => p.agreement == "DISAGREE")).length
    let required_offline := sensor_alerts.filter
      (fun a => !a.is_optional && a.alert == "OFFLINE")
    let required_degraded := sensor_alerts.filter
      (fun a => !a.is_optional && a.alert == "DEGRADED")
    let required_indeterminate := (required_pairs.filter
      (fun p => p.agreement == "INDETERMINATE" || p.agreement == "RESOLVED")).length
    let dnames := String.intercalate "," (required_degraded.map (·.sensor_id))
    let onames := String.intercalate "," (required_offline.map (·.sensor_id))
    let md : String × List String :=
      if fused_value.isAbsZero then ("FAILOVER", ["FUSED_VALUE_INAPPLICABLE"])
      else if disagree_count > max_disagree then
        ("INCONSISTENT", [s!"REQUIRED_DISAGREE({disagree_count})"])
      else if fused_value.isMeasZero then ("DEGRADED", ["FUSED_VALUE_INDETERMINATE"])
      else if !required_degraded.isEmpty then
        ("DEGRADED", [s!"REQUIRED_SENSOR_DEGRADED({dnames})"])
      else if required_indeterminate > 0 then
        ("DEGRADED", [s!"REQUIRED_INDETERMINATE_PAIRS({required_indeterminate})"])
      else if !required_offline.isEmpty then
        ("REDUCED", [s!"REQUIRED_SENSOR_OFFLINE({onames})"])
      else if semi_disagree > max_disagree then
        ("INCONSISTENT", [s!"SEMI_REQUIRED_DISAGREE({semi_disagree})"])
      else ("OK", [])
    { fused_value := fused_value, eligible_count := eligible_count,
      total_count := total_count, definite_count := definite_count,
      fused_sum := fused_sum, pairwise := pairwise, sensor_alerts := sensor_alerts,
      confidence := confidence, redundancy := redundancy,
      group_mode := md.1, reasons := md.2 }

/-- Pair whose two sensors are both non-optional (a required-only pair). -/
def PairRequiredOnly (optional : List String) (p : PairwiseResult) : Prop :=
  p.sensor_a ∉ optional ∧ p.sensor_b ∉ optional

/-- Pair with at least one non-optional sensor (a semi-required pair). -/
def PairSemiRequired (optional : List String) (p : PairwiseResult) : Prop :=
  p.sensor_a ∉ optional ∨ p.sensor_b ∉ optional

instance (optional : List String) (p : PairwiseResult) :
    Decidable (PairRequiredOnly optional p) := by
  unfold PairRequiredOnly; infer_instance

instance (optional : List String) (p : PairwiseResult) :
    Decidable (PairSemiRequired optional p) := by
  unfold PairSemiRequired; infer_instance

/-- Modelled from the claim wording: the mode as the first match, in order,
of the eight conditions (a)-(h), phrased over the semantic reading and pair
properties rather than the intermediate filtered lists of the code. -/
def claimedGroupMode (readings : List TypedReading) (agree_eps : ℚ)
    (max_disagree : ℕ) (optional : List String) : String :=
  let pairs := all_pairwise readings agree_eps
  let fused := avg_s (readings.map (·.s))
  if fused = S.absZero then "FAILOVER"
  else if max_disagree <
      pairs.countP (fun p => decide (PairRequiredOnly optional p ∧ p.agreement = "DISAGREE")) then
    "INCONSISTENT"
  else if fused = S.measZero then "DEGRADED"
  else if ∃ r ∈ readings, r.sensor_id ∉ optional ∧ r.s = S.measZero then "DEGRADED"
  else if ∃ p ∈ pairs, PairRequiredOnly optional p ∧
      (p.agreement = "INDETERMINATE" ∨ p.agreement = "RESOLVED") then "DEGRADED"
  else if ∃ r ∈ readings, r.sensor_id ∉ optional ∧ r.s = S.absZero then "REDUCED"
  else if max_disagree <
      pairs.countP (fun p => decide (PairSemiRequired optional p ∧ p.agreement = "DISAGREE")) then
    "INCONSISTENT"
  else "OK"

section Bridges

theorem isAbsZero_iff (x : S) : x.isAbsZero = true ↔ x = S.absZero := by
  cases x <;> simp [S.isAbsZero]

theorem isMeasZero_iff (x : S) : x.isMeasZero = true ↔ x = S.measZero := by
  cases x <;> simp [S.isMeasZero]

theorem req_disagree_count_eq (pairs : List PairwiseResult) (optional : List String) :
    ((pairs.filter
        (fun p => !optional.contains p.sensor_a && !optional.contains p.sensor_b)).filter
      (fun p => p.agreement == "DISAGREE")).length
    = pairs.countP (fun p => decide (PairRequiredOnly optional p ∧ p.agreement = "DISAGREE")) := by
  rw [← List.countP_eq_length_filter, List.countP_filter]
  apply List.countP_congr
  intro p _
  simp [PairRequiredOnly, List.elem_iff, Bool.and_comm, and_comm, and_assoc]

theorem semi_disagree_count_eq (pairs : List PairwiseResult) (optional : List String) :
    ((pairs.filter
        (fun p => !optional.contains p.sensor_a || !optional.contains p.sensor_b)).filter
      (fun p => p.agreement == "DISAGREE")).length
    = pairs.countP (fun p => decide (PairSemiRequired optional p ∧ p.agreement = "DISAGREE")) := by
  rw [← List.countP_eq_length_filter, List.countP_filter]
  apply List.countP_congr
  intro p _
  simp [PairSemiRequired, List.elem_iff, Bool.and_comm, and_comm]

theorem req_degraded_exists_iff (readings : List TypedReading) (opt : List String) :
    (!((derive_sensor_alerts readings opt).filter
        (fun a => !a.is_optional && a.alert == "DEGRADED")).isEmpty) = true
    ↔ ∃ r ∈ readings, r.sensor_id ∉ opt ∧ r.s = S.measZero := by
  rw [Bool.not_eq_true', ← Bool.not_eq_true, List.isEmpty_iff]
  rw [List.filter_eq_nil_iff]
  simp only [not_forall]
  constructor
  · rintro ⟨a, ha, hpa⟩
    rw [derive_sensor_alerts, List.mem_map] at ha
    obtain ⟨r, hr, rfl⟩ := ha
    refine ⟨r, hr, ?_⟩
    revert hpa
    cases r.s <;> simp [List.elem_iff]
  · rintro ⟨r, hr, hopt, hs⟩
    refine ⟨⟨r.sensor_id, "0_m", "DEGRADED", decide (r.sensor_id ∈ opt)⟩, ?_, ?_⟩
    · rw [derive_sensor_alerts, List.mem_map]
      exact ⟨r, hr, by rw [hs]⟩
    · simp [hopt]

theorem req_offline_exists_iff (readings : List TypedReading) (opt : List String) :
    (!((derive_sensor_alerts readings opt).filter
        (fun a => !a.is_optional && a.alert == "OFFLINE")).isEmpty) = true
    ↔ ∃ r ∈ readings, r.sensor_id ∉ opt ∧ r.s = S.absZero := by
  rw [Bool.not_eq_true', ← Bool.not_eq_true, List.isEmpty_iff]
  rw [List.filter_eq_nil_iff]
  simp only [not_forall]
  constructor
  · rintro ⟨a, ha, hpa⟩
    rw [derive_sensor_alerts, List.mem_map] at ha
    obtain ⟨r, hr, rfl⟩ := ha
    refine ⟨r, hr, ?_⟩
    revert hpa
    cases r.s <;> simp [List.elem_iff]
  · rintro ⟨r, hr, hopt, hs⟩
    refine ⟨⟨r.sensor_id, "0_bm", "OFFLINE", decide (r.sensor_id ∈ opt)⟩, ?_, ?_⟩
    · rw [derive_sensor_alerts, List.mem_map]
      exact ⟨r, hr, by rw [hs]⟩
    · simp [hopt]

theorem req_indet_pos_iff (pairs : List PairwiseResult) (opt : List String) :
    0 < ((pairs.filter
        (fun p => !opt.contains p.sensor_a && !opt.contains p.sensor_b)).filter
      (fun p => p.agreement == "INDETERMINATE" || p.agreement == "RESOLVED")).length
    ↔ ∃ p ∈ pairs, PairRequiredOnly opt p ∧
        (p.agreement = "INDETERMINATE" ∨ p.agreement = "RESOLVED") := by
  rw [List.length_pos_iff_exists_mem]
  constructor
  · rintro ⟨p, hp⟩
    simp only [List.mem_filter] at hp
    obtain ⟨⟨hmem, hreq⟩, hind⟩ := hp
    refine ⟨p, hmem, ?_, ?_⟩
    · revert hreq
      simp [PairRequiredOnly, List.elem_iff]
    · revert hind
      simp
  · rintro ⟨p, hmem, hreq, hind⟩
    refine ⟨p, ?_⟩
    simp only [List.mem_filter]
    refine ⟨⟨hmem, ?_⟩, ?_⟩
    · revert hreq
      simp [PairRequiredOnly, List.elem_iff]
    · revert hind
      simp

theorem ite_fst {α β : Type _} (c : Prop) [Decidable c] (x y : α × β) :
    (ite c x y).1 = ite c x.1 y.1 := by
  split_ifs <;> rfl

end Bridges

/-- C1: the mode of fuse_group is decided as follows: when
eligible_count < required_eligible (the empty reading list with positive
required_eligible included) the mode is FAILOVER and the pairwise list of
the result is empty; otherwise the mode is the first match, in order, of
(a) fused value AbsZero, (b) required-only pairs DISAGREEing beyond
max_disagree, (c) fused value MeasZero, (d) some non-optional sensor
DEGRADED, (e) some required-only pair INDETERMINATE or RESOLVED, (f) some
non-optional sensor OFFLINE, (g) semi-required pairs DISAGREEing beyond
max_disagree, (h) OK. -/
theorem C1_fuse_group_mode (readings : List TypedReading) (required_eligible : ℕ)
    (agree_eps : ℚ) (max_disagree : ℕ) (optional : List String) :
    (count_s (readings.map (·.s)) < required_eligible →
      (fuse_group readings required_eligible agree_eps max_disagree optional).group_mode
        = "FAILOVER" ∧
      (fuse_group readings required_eligible agree_eps max_disagree optional).pairwise = []) ∧
    (required_eligible ≤ count_s (readings.map (·.s)) →
      (fuse_group readings required_eligible agree_eps max_disagree optional).group_mode
        = claimedGroupMode readings agree_eps max_disagree optional) := by
  constructor
  · intro h
    simp [fuse_group, h]
  · intro h
    have hnot : ¬ count_s (readings.map (·.s)) < required_eligible := not_lt.mpr h
    simp only [fuse_group, claimedGroupMode, hnot, if_false, ite_fst]
    refine if_congr (isAbsZero_iff _) rfl ?_
    refine if_congr (by rw [req_disagree_count_eq]) rfl ?_
    refine if_congr (isMeasZero_iff _) rfl ?_
    refine if_congr (req_degraded_exists_iff readings optional) rfl ?_
    refine if_congr (by rw [gt_iff_lt, req_indet_pos_iff]) rfl ?_
    refine if_congr (req_offline_exists_iff readings optional) rfl ?_
    exact if_congr (by rw [semi_disagree_count_eq]) rfl rfl

/-- C1 witness: both branches instantiated concretely; a single offline
reading with required_eligible 2 fails over with an empty pairwise list,
and two agreeing readings with required_eligible 1 follow the priority
decision. -/
theorem C1_fuse_group_mode_witness :
    ((fuse_group [⟨"a", S.absZero, 0, "SIM", SensorTna.RawValue.missing⟩] 2 1 0 []).group_mode
      = "FAILOVER" ∧
     (fuse_group [⟨"a", S.absZero, 0, "SIM", SensorTna.RawValue.missing⟩] 2 1 0 []).pairwise = []) ∧
    (fuse_group [⟨"a", S.real 10, 0, "SIM", SensorTna.RawValue.val 10⟩,
        ⟨"b", S.real 10, 0, "SIM", SensorTna.RawValue.val 10⟩] 1 1 0 []).group_mode
      = claimedGroupMode [⟨"a", S.real 10, 0, "SIM", SensorTna.RawValue.val 10⟩,
        ⟨"b", S.real 10, 0, "SIM", SensorTna.RawValue.val 10⟩] 1 0 [] :=
  ⟨(C1_fuse_group_mode [⟨"a", S.absZero, 0, "SIM", SensorTna.RawValue.missing⟩] 2 1 0 []).1
      (by norm_num [count_s, List.filter, S.isAbsZero]),
   (C1_fuse_group_mode [⟨"a", S.real 10, 0, "SIM", SensorTna.RawValue.val 10⟩,
        ⟨"b", S.real 10, 0, "SIM", SensorTna.RawValue.val 10⟩] 1 1 0 []).2
      (by norm_num [count_s, List.filter, S.isAbsZero])⟩

end Fusion

namespace WindowPolicy

/-- WindowParams of window_policy.py with its defaults. -/
structure WindowParams where
  degraded_k : ℕ := 3
  reduced_k : ℕ := 3
  inconsistent_k : ℕ := 2
  failover_k : ℕ := 5
  ok_recover_k : ℕ := 3
  max_history : ℕ := 10

/-- GroupWindowState of window_policy.py: the bounded raw-mode history and
the current stable mode. -/
structure GroupWindowState where
  history : List String
  stable_mode : String

/-- The _consecutive_suffix loop of WindowedDecider: length of the trailing
consecutive run of label at the end of hist (counted over the reversed list
until the first mismatch). -/
def consecutive_suffix (hist : List String) (label : String) : ℕ :=
  (hist.reverse.takeWhile (fun x => decide (x = label))).length

/-- Bounded append of the history deque: push the new mode on the right and
drop from the left down to the maxlen capacity. -/
def push_history (maxlen : ℕ) (hist : List String) (m : String) : List String :=
  let h := hist ++ [m]
  if maxlen < h.length then h.drop (h.length - maxlen) else h

/-- WindowedDecider.update of window_policy.py restricted to one group state:
append the new raw mode to the bounded history, then recompute the stable
mode by the priority-ordered trailing-run thresholds with the OK-recovery
rule. -/
def decider_update (p : WindowParams) (st : GroupWindowState) (base_mode : String) :
    GroupWindowState :=
  let hist := push_history p.max_history st.history base_mode
  let stable :=
    if p.failover_k ≤ consecutive_suffix hist "FAILOVER" then "FAILOVER"
    else if p.inconsistent_k ≤ consecutive_suffix hist "INCONSISTENT" then "INCONSISTENT"
    else if p.degraded_k ≤ consecutive_suffix hist "DEGRADED" then "DEGRADED"
    else if p.reduced_k ≤ consecutive_suffix hist "REDUCED" then "REDUCED"
    else if st.stable_mode ∈ ["DEGRADED", "INCONSISTENT", "FAILOVER", "REDUCED"] then
      (if p.ok_recover_k ≤ consecutive_suffix hist "OK" then "OK" else st.stable_mode)
    else "OK"
  ⟨hist, stable⟩

/-- The spec notion of a trailing consecutive run: the last k entries of
hist all equal m. -/
def TrailingRun (hist : List String) (m : String) (k : ℕ) : Prop :=
  ∃ pre, hist = pre ++ List.replicate k m

theorem replicate_prefix_iff_takeWhile (m : String) :
    ∀ (k : ℕ) (l : List String),
      (∃ q, l = List.replicate k m ++ q) ↔
        k ≤ (l.takeWhile (fun x => decide (x = m))).length := by
  intro k
  induction k with
  | zero => intro l; simp
  | succ n ih =>
    intro l
    cases l with
    | nil =>
      constructor
      · rintro ⟨q, hq⟩
        exact absurd hq (by simp [List.replicate_succ])
      · intro hlen
        simp at hlen
    | cons a t =>
      rw [List.takeWhile_cons]
      constructor
      · rintro ⟨q, hq⟩
        rw [List.replicate_succ, List.cons_append, List.cons.injEq] at hq
        obtain ⟨rfl, ht⟩ := hq
        rw [if_pos (by simp)]
        simp only [List.length_cons]
        have := (ih t).mp ⟨q, ht⟩
        omega
      · intro hlen
        by_cases ha : a = m
        · rw [if_pos (by simp [ha])] at hlen
          simp only [List.length_cons] at hlen
          have hn : n ≤ (t.takeWhile (fun x => decide (x = m))).length := by omega
          obtain ⟨q, hq⟩ := (ih t).mpr hn
          exact ⟨q, by rw [List.replicate_succ, List.cons_append, ← hq, ha]⟩
        · rw [if_neg (by simp [ha])] at hlen
          simp at hlen

theorem trailingRun_iff_consecutive_suffix (hist : List String) (m : String) (k : ℕ) :
    TrailingRun hist m k ↔ k ≤ consecutive_suffix hist m := by
  rw [consecutive_suffix, ← replicate_prefix_iff_takeWhile]
  constructor
  · rintro ⟨pre, rfl⟩
    exact ⟨pre.reverse, by rw [List.reverse_append, List.reverse_replicate]⟩
  · rintro ⟨q, hq⟩
    refine ⟨q.reverse, ?_⟩
    have := congrArg List.reverse hq
    rw [List.reverse_reverse, List.reverse_append, List.reverse_replicate] at this
    exact this

instance (hist : List String) (m : String) (k : ℕ) : Decidable (TrailingRun hist m k) :=
  decidable_of_iff _ (trailingRun_iff_consecutive_suffix hist m k).symm

/-- Modelled from the claim wording: the stable mode after one update is the
first of FAILOVER, INCONSISTENT, DEGRADED, REDUCED (in that strict priority
order) whose trailing consecutive run in the new history meets its per-mode
threshold; when none qualifies, a non-OK stable mode recovers to OK exactly
when the trailing OK run reaches ok_recover_k, and an OK stable mode stays
OK. -/
def claimedStableMode (p : WindowParams) (hist : List String) (stable : String) : String :=
  if TrailingRun hist "FAILOVER" p.failover_k then "FAILOVER"
  else if TrailingRun hist "INCONSISTENT" p.inconsistent_k then "INCONSISTENT"
  else if TrailingRun hist "DEGRADED" p.degraded_k then "DEGRADED"
  else if TrailingRun hist "REDUCED" p.reduced_k then "REDUCED"
  else if stable = "DEGRADED" ∨ stable = "INCONSISTENT" ∨ stable = "FAILOVER" ∨
      stable = "REDUCED" then
    (if TrailingRun hist "OK" p.ok_recover_k then "OK" else stable)
  else "OK"

/-- C3: one update of the windowed decider appends the new raw mode to the
bounded history (whose length stays within max_history) and recomputes the
stable mode as the priority-ordered first trailing-run threshold match with
the OK-recovery rule; with the default parameters, two consecutive DEGRADED
raw ticks leave the stable mode OK and the third makes it DEGRADED. -/
theorem C3_windowed_decider (p : WindowParams) (st : GroupWindowState) (m : String)
    (hpos : 0 < p.max_history) :
    (∃ pre, (decider_update p st m).history = pre ++ [m]) ∧
    ((decider_update p st m).history.length ≤ p.max_history) ∧
    ((decider_update p st m).stable_mode =
      claimedStableMode p (decider_update p st m).history st.stable_mode) ∧
    ((decider_update {} ⟨[], "OK"⟩ "DEGRADED").stable_mode = "OK" ∧
     (decider_update {} (decider_update {} ⟨[], "OK"⟩ "DEGRADED") "DEGRADED").stable_mode
       = "OK" ∧
     (decider_update {}
        (decider_update {} (decider_update {} ⟨[], "OK"⟩ "DEGRADED") "DEGRADED")
        "DEGRADED").stable_mode = "DEGRADED") := by
  refine ⟨?_, ?_, ?_, ?_, ?_, ?_⟩
  · rw [decider_update]
    simp only [push_history]
    by_cases hlen : p.max_history < (st.history ++ [m]).length
    · simp only [hlen, if_true]
      have hle : (st.history ++ [m]).length - p.max_history ≤ st.history.length := by
        simp only [List.length_append, List.length_cons, List.length_nil]
        omega
      rw [List.drop_append_of_le_length hle]
      exact ⟨st.history.drop ((st.history ++ [m]).length - p.max_history), rfl⟩
    · simp only [hlen, if_false]
      exact ⟨st.history, rfl⟩
  · rw [decider_update]
    simp only [push_history]
    by_cases hlen : p.max_history < (st.history ++ [m]).length
    · simp only [hlen, if_true, List.length_drop]
      omega
    · simp only [hlen, if_false]
      omega
  · rw [decider_update, claimedStableMode]
    refine if_congr (trailingRun_iff_consecutive_suffix _ _ _).symm rfl ?_
    refine if_congr (trailingRun_iff_consecutive_suffix _ _ _).symm rfl ?_
    refine if_congr (trailingRun_iff_consecutive_suffix _ _ _).symm rfl ?_
    refine if_congr (trailingRun_iff_consecutive_suffix _ _ _).symm rfl ?_
    refine if_congr (by simp) ?_ rfl
    exact if_congr (trailingRun_iff_consecutive_suffix _ _ _).symm rfl rfl
  · decide
  · decide
  · decide

/-- C3 witness: the update applied at the default parameters to an empty
history with stable mode OK. -/
theorem C3_windowed_decider_witness :
    (∃ pre, (decider_update {} ⟨[], "OK"⟩ "DEGRADED").history = pre ++ ["DEGRADED"]) ∧
    (decider_update {} ⟨[], "OK"⟩ "DEGRADED").stable_mode =
      claimedStableMode {} (decider_update {} ⟨[], "OK"⟩ "DEGRADED").history "OK" :=
  ⟨(C3_windowed_decider {} ⟨[], "OK"⟩ "DEGRADED" (by decide)).1,
   (C3_windowed_decider {} ⟨[], "OK"⟩ "DEGRADED" (by decide)).2.2.1⟩

end WindowPolicy

namespace AlertEngine

/-- CONFIRM_AFTER of alert_engine.py: consecutive present cycles to confirm. -/
def CONFIRM_AFTER : ℕ := 3

/-- CLEAR_AFTER of alert_engine.py: consecutive absent cycles to deactivate. -/
def CLEAR_AFTER : ℕ := CONFIRM_AFTER * 2

/-- COOLDOWN_SECONDS of alert_engine.py: minimum seconds between alerts for
the same fault key. -/
def COOLDOWN_SECONDS : ℚ := 1800

/-- AlertState of alert_engine.py for one fault key; the empty
last_alerted_at / last_seen_at strings are modelled as none, timestamps as
rationals. -/
structure AlertState where
  present_streak : ℕ
  absent_streak : ℕ
  active : Bool
  confirmed : Bool
  last_alerted_at : Option ℚ
  last_seen_at : Option ℚ
  deriving DecidableEq

/-- Fresh state created for a key on first observation. -/
def initState : AlertState :=
  ⟨0, 0, false, false, none, none⟩

/-- One present-fault update of alert_engine.update for one key: bump the
present streak, reset the absent streak, mark active and seen, then run the
confirmation and cooldown logic; the returned Bool is whether an AlertEvent
was emitted this cycle. -/
def step_present (st : AlertState) (now : ℚ) : AlertState × Bool :=
  let st1 : AlertState :=
    { st with
      present_streak := st.present_streak + 1
      absent_streak := 0
      active := true
      last_seen_at := some now }
  if CONFIRM_AFTER ≤ st1.present_streak ∧ st1.confirmed = false then
    match st1.last_alerted_at with
    | some last =>
      if now - last < COOLDOWN_SECONDS then
        ({ st1 with confirmed := true, active := true }, false)
      else
        ({ st1 with confirmed := true, last_alerted_at := some now }, true)
    | none => ({ st1 with confirmed := true, last_alerted_at := some now }, true)
  else (st1, false)

/-- One absent-fault update of alert_engine.update for one tracked key:
bump the absent streak, reset the present streak, and fully clear once the
absent streak reaches CLEAR_AFTER. -/
def step_absent (st : AlertState) : AlertState :=
  let st1 : AlertState := { st with absent_streak := st.absent_streak + 1, present_streak := 0 }
  if CLEAR_AFTER ≤ st1.absent_streak then
    { st1 with active := false, confirmed := false }
  else st1

/-- Run of the per-key state machine over a cycle list (timestamp, present
flag), counting the emitted AlertEvents. -/
def run (st : AlertState) : List (ℚ × Bool) → AlertState × ℕ
  | [] => (st, 0)
  | (t, present) :: rest =>
    let step := if present then step_present st t else (step_absent st, false)
    let tail := run step.1 rest
    (tail.1, (if step.2 then 1 else 0) + tail.2)

/-- C4: three consecutive present cycles from a fresh unconfirmed state emit
exactly one AlertEvent and leave the state with the streaks, flags and
timestamps the claim lists; a confirmation that lands within the cooldown
window of the previous alert emits nothing but still sets confirmed and
active; and the full scenario holds: three presents emit once, six absents
fully clear the state, a reappearance within cooldown re-confirms without a
second event, while a reappearance after cooldown expiry emits a second
event. -/
theorem C4_alert_state_machine (t1 t2 t3 : ℚ) (st : AlertState) (now last : ℚ)
    (hconf : st.confirmed = false)
    (hstreak : CONFIRM_AFTER ≤ st.present_streak + 1)
    (hlast : st.last_alerted_at = some last)
    (hcool : now - last < COOLDOWN_SECONDS) :
    run initState [(t1, true), (t2, true), (t3, true)] =
      (⟨3, 0, true, true, some t3, some t3⟩, 1) ∧
    ((step_present st now).2 = false ∧ (step_present st now).1.confirmed = true ∧
      (step_present st now).1.active = true) ∧
    run initState
      [(0, true), (1, true), (2, true),
       (3, false), (4, false), (5, false), (6, false), (7, false), (8, false),
       (9, true), (10, true), (11, true)] =
      (⟨3, 0, true, true, some 2, some 11⟩, 1) ∧
    (run initState
      [(0, true), (1, true), (2, true),
       (3, false), (4, false), (5, false), (6, false), (7, false), (8, false)]).1.active
        = false ∧
    (run initState
      [(0, true), (1, true), (2, true),
       (3, false), (4, false), (5, false), (6, false), (7, false), (8, false)]).1.confirmed
        = false ∧
    run initState
      [(0, true), (1, true), (2, true),
       (3, false), (4, false), (5, false), (6, false), (7, false), (8, false),
       (2000, true), (2001, true), (2002, true)] =
      (⟨3, 0, true, true, some 2002, some 2002⟩, 2) := by
  refine ⟨?_, ?_, ?_, ?_, ?_, ?_⟩
  · simp [run, step_present, initState, CONFIRM_AFTER]
  · simp [step_present, hlast, hstreak, hconf, hcool]
  · norm_num [run, step_present, step_absent, initState, CONFIRM_AFTER, CLEAR_AFTER,
      COOLDOWN_SECONDS]
  · norm_num [run, step_present, step_absent, initState, CONFIRM_AFTER, CLEAR_AFTER,
      COOLDOWN_SECONDS]
  · norm_num [run, step_present, step_absent, initState, CONFIRM_AFTER, CLEAR_AFTER,
      COOLDOWN_SECONDS]
  · norm_num [run, step_present, step_absent, initState, CONFIRM_AFTER, CLEAR_AFTER,
      COOLDOWN_SECONDS]

/-- C4 witness: the cooldown-suppression branch applied at a concrete state
and time, together with the concrete three-cycle run. -/
theorem C4_alert_state_machine_witness :
    run initState [(0, true), (1, true), (2, true)] =
      (⟨3, 0, true, true, some 2, some 2⟩, 1) ∧
    (step_present ⟨2, 0, true, false, some 10, some 11⟩ 12).2 = false ∧
    (step_present ⟨2, 0, true, false, some 10, some 11⟩ 12).1.confirmed = true :=
  ⟨(C4_alert_state_machine 0 1 2 ⟨2, 0, true, false, some 10, some 11⟩ 12 10
      rfl (by decide) rfl (by norm_num [COOLDOWN_SECONDS])).1,
   (C4_alert_state_machine 0 1 2 ⟨2, 0, true, false, some 10, some 11⟩ 12 10
      rfl (by decide) rfl (by norm_num [COOLDOWN_SECONDS])).2.1.1,
   (C4_alert_state_machine 0 1 2 ⟨2, 0, true, false, some 10, some 11⟩ 12 10
      rfl (by decide) rfl (by norm_num [COOLDOWN_SECONDS])).2.1.2.1⟩

end AlertEngine

namespace FaultAggregator

section Walk

variable {α : Type} [DecidableEq α]

/-- Depth-first walk with an explicit visited set, shared shape of the
recursive helpers _collect_faulty_upstreams and has_faulty_downstream of
fault_aggregator.py: pop a node, skip it when already visited, otherwise
mark it visited and push its adjacency list; returns the final visited
list (in reverse expansion order, without duplicates).  The fuel argument
is a step bound; walkMeasure below bounds the number of steps the
visited-set pruning allows, so callers pass a fuel above that bound and
the walk always runs to completion. -/
def walkF (adj : α → List α) : ℕ → List α → List α → List α
  | 0, _, vis => vis
  | _ + 1, [], vis => vis
  | fuel + 1, s :: rest, vis =>
    if s ∈ vis then walkF adj fuel rest vis
    else walkF adj fuel (adj s ++ rest) (s :: vis)

/-- Upper bound on the adjacency list lengths over the id universe. -/
def adjBound (univ : Finset α) (adj : α → List α) : ℕ :=
  univ.sup (fun s => (adj s).length)

/-- Step bound of the walk: every step either pops the stack or spends one
of the unvisited universe elements, which buys at most adjBound pushes. -/
def walkMeasure (univ : Finset α) (adj : α → List α) (stack : List α)
    (vis : List α) : ℕ :=
  (univ \ vis.toFinset).card * (adjBound univ adj + 1) + stack.length

/-- The visited list computed by the walk from a start node, run with fuel
above the step bound. -/
def walkVisited (univ : Finset α) (adj : α → List α) (start : α) : List α :=
  walkF adj (walkMeasure univ adj [start] [] + 1) [start] []

/-- One adjacency step that avoids the visited set. -/
def AvoidRel (adj : α → List α) (vis : List α) (a b : α) : Prop :=
  b ∈ adj a ∧ b ∉ vis

theorem walkMeasure_expand_lt (univ : Finset α) (adj : α → List α) (s : α)
    (rest : List α) (vis : List α)
    (hadj : ∀ t, t ∉ univ → adj t = []) (hs : s ∉ vis) :
    walkMeasure univ adj (adj s ++ rest) (s :: vis) <
      walkMeasure univ adj (s :: rest) vis := by
  by_cases hu : s ∈ univ
  · have hB : (adj s).length ≤ adjBound univ adj := by
      rw [adjBound]
      exact Finset.le_sup (f := fun t => (adj t).length) hu
    have hmem : s ∈ univ \ vis.toFinset :=
      Finset.mem_sdiff.mpr ⟨hu, fun h => hs (List.mem_toFinset.mp h)⟩
    have hsd : univ \ (s :: vis).toFinset = (univ \ vis.toFinset).erase s := by
      rw [List.toFinset_cons]
      ext a
      simp only [Finset.mem_sdiff, Finset.mem_insert, Finset.mem_erase]
      tauto
    have hcard : (univ \ (s :: vis).toFinset).card = (univ \ vis.toFinset).card - 1 := by
      rw [hsd, Finset.card_erase_of_mem hmem]
    have hpos : 0 < (univ \ vis.toFinset).card := Finset.card_pos.mpr ⟨s, hmem⟩
    have hexp : (univ \ vis.toFinset).card * (adjBound univ adj + 1)
        = ((univ \ vis.toFinset).card - 1) * (adjBound univ adj + 1)
          + (adjBound univ adj + 1) := by
      cases hc : (univ \ vis.toFinset).card with
      | zero => omega
      | succ d => rw [Nat.succ_mul]; simp
    rw [walkMeasure, walkMeasure, hcard, List.length_append, List.length_cons]
    omega
  · have hadj0 : adj s = [] := hadj s hu
    have hsd : univ \ (s :: vis).toFinset = univ \ vis.toFinset := by
      rw [List.toFinset_cons]
      ext a
      simp only [Finset.mem_sdiff, Finset.mem_insert]
      constructor
      · rintro ⟨ha, hins⟩
        exact ⟨ha, fun hv => hins (Or.inr hv)⟩
      · rintro ⟨ha, hav⟩
        refine ⟨ha, ?_⟩
        rintro (rfl | hv)
        · exact hu ha
        · exact hav hv
    rw [walkMeasure, walkMeasure, hsd, hadj0]
    simp only [List.nil_append, List.length_cons]
    omega

theorem avoid_insert_split (adj : α → List α) (vis : List α) (s : α) (a x : α)
    (h : Relation.ReflTransGen (AvoidRel adj vis) a x) :
    x = s ∨
    (∃ u, AvoidRel adj (s :: vis) s u ∧
      Relation.ReflTransGen (AvoidRel adj (s :: vis)) u x) ∨
    Relation.ReflTransGen (AvoidRel adj (s :: vis)) a x := by
  induction h using Relation.ReflTransGen.head_induction_on with
  | refl => exact Or.inr (Or.inr Relation.ReflTransGen.refl)
  | @head b c hbc hcx ih =>
    rcases ih with hxs | hmid | hcx2
    · exact Or.inl hxs
    · exact Or.inr (Or.inl hmid)
    · by_cases hcs : c = s
      · subst hcs
        rcases Relation.ReflTransGen.cases_head hcx2 with heq | ⟨u, hu, hux⟩
        · exact Or.inl heq.symm
        · exact Or.inr (Or.inl ⟨u, hu, hux⟩)
      · have hedge : AvoidRel adj (s :: vis) b c := by
          refine ⟨hbc.1, ?_⟩
          rw [List.mem_cons]
          rintro (h1 | h1)
          · exact hcs h1
          · exact hbc.2 h1
        exact Or.inr (Or.inr (hcx2.head hedge))

theorem stack_expand_iff (adj : α → List α) (vis : List α) (s : α) (hs : s ∉ vis)
    (rest : List α) (x : α) :
    (x ∈ s :: vis ∨ ∃ t, t ∈ adj s ++ rest ∧ t ∉ s :: vis ∧
        Relation.ReflTransGen (AvoidRel adj (s :: vis)) t x) ↔
    (x ∈ vis ∨ ∃ t, t ∈ s :: rest ∧ t ∉ vis ∧
        Relation.ReflTransGen (AvoidRel adj vis) t x) := by
  have hmono : ∀ a b : α, Relation.ReflTransGen (AvoidRel adj (s :: vis)) a b →
      Relation.ReflTransGen (AvoidRel adj vis) a b := by
    intro a b h
    refine Relation.ReflTransGen.mono ?_ h
    rintro u v ⟨h1, h2⟩
    exact ⟨h1, fun hv => h2 (List.mem_cons_of_mem s hv)⟩
  constructor
  · rintro (hx | ⟨t, ht, htn, hp⟩)
    · rcases List.mem_cons.mp hx with rfl | hx
      · exact Or.inr ⟨x, List.mem_cons_self _ _, hs, Relation.ReflTransGen.refl⟩
      · exact Or.inl hx
    · have htv : t ∉ vis := fun hv => htn (List.mem_cons_of_mem s hv)
      rcases List.mem_append.mp ht with hta | htr
      · exact Or.inr ⟨s, List.mem_cons_self _ _, hs,
          Relation.ReflTransGen.head ⟨hta, htv⟩ (hmono _ _ hp)⟩
      · exact Or.inr ⟨t, List.mem_cons_of_mem _ htr, htv, hmono _ _ hp⟩
  · rintro (hx | ⟨t, ht, htv, hp⟩)
    · exact Or.inl (List.mem_cons_of_mem s hx)
    · rcases avoid_insert_split adj vis s t x hp with rfl | ⟨u, hu, hux⟩ | hax
      · exact Or.inl (List.mem_cons_self _ _)
      · exact Or.inr ⟨u, List.mem_append_left _ hu.1, hu.2, hux⟩
      · by_cases hts : t = s
        · subst hts
          rcases Relation.ReflTransGen.cases_head hax with heq | ⟨u, hu, hux⟩
          · exact Or.inl (heq ▸ List.mem_cons_self _ _)
          · exact Or.inr ⟨u, List.mem_append_left _ hu.1, hu.2, hux⟩
        · have htmem : t ∈ rest := by
            rcases List.mem_cons.mp ht with h1 | h1
            · exact absurd h1 hts
            · exact h1
          have htn : t ∉ s :: vis := by
            rw [List.mem_cons]
            rintro (h1 | h1)
            · exact hts h1
            · exact htv h1
          exact Or.inr ⟨t, List.mem_append_right _ htmem, htn, hax⟩

theorem mem_walkF (univ : Finset α) (adj : α → List α)
    (hadj : ∀ s, s ∉ univ → adj s = []) :
    ∀ (fuel : ℕ) (stack : List α) (vis : List α),
      walkMeasure univ adj stack vis < fuel →
      ∀ x, x ∈ walkF adj fuel stack vis ↔
        x ∈ vis ∨ ∃ s, s ∈ stack ∧ s ∉ vis ∧
          Relation.ReflTransGen (AvoidRel adj vis) s x := by
  intro fuel
  induction fuel with
  | zero =>
    intro stack vis h
    exact absurd h (Nat.not_lt_zero _)
  | succ n ih =>
    intro stack vis hm x
    cases stack with
    | nil => simp [walkF]
    | cons s rest =>
      simp only [walkF]
      by_cases hs : s ∈ vis
      · rw [if_pos hs]
        have hm2 : walkMeasure univ adj rest vis < n := by
          rw [walkMeasure] at hm ⊢
          simp only [List.length_cons] at hm
          omega
        rw [ih rest vis hm2 x]
        constructor
        · rintro (hx | ⟨t, ht, htv, hp⟩)
          · exact Or.inl hx
          · exact Or.inr ⟨t, List.mem_cons_of_mem _ ht, htv, hp⟩
        · rintro (hx | ⟨t, ht, htv, hp⟩)
          · exact Or.inl hx
          · rcases List.mem_cons.mp ht with rfl | h1
            · exact absurd hs htv
            · exact Or.inr ⟨t, h1, htv, hp⟩
      · rw [if_neg hs]
        have hlt := walkMeasure_expand_lt univ adj s rest vis hadj hs
        have hm2 : walkMeasure univ adj (adj s ++ rest) (s :: vis) < n := by omega
        rw [ih _ _ hm2 x]
        exact stack_expand_iff adj vis s hs rest x

omit [DecidableEq α] in
theorem rtg_avoid_empty_iff (adj : α → List α) (a b : α) :
    Relation.ReflTransGen (AvoidRel adj ([] : List α)) a b ↔
      Relation.ReflTransGen (fun u v => v ∈ adj u) a b := by
  constructor <;> intro h <;> refine Relation.ReflTransGen.mono ?_ h
  · rintro u v ⟨h1, _⟩
    exact h1
  · rintro u v h1
    exact ⟨h1, List.not_mem_nil v⟩

theorem mem_walkVisited (univ : Finset α) (adj : α → List α)
    (hadj : ∀ s, s ∉ univ → adj s = []) (start x : α) :
    x ∈ walkVisited univ adj start ↔
      Relation.ReflTransGen (fun u v => v ∈ adj u) start x := by
  rw [walkVisited, mem_walkF univ adj hadj _ _ _ (Nat.lt_succ_self _)]
  simp [rtg_avoid_empty_iff]

/-- The faulty nodes the walk finds: for each expanded node, its adjacency
entries that are in the faulty set (the found-set updates of
_collect_faulty_upstreams, equivalently the hits of has_faulty_downstream),
deduplicated as a set. -/
def collectReach (univ : Finset α) (adj : α → List α) (faulty : List α)
    (start : α) : List α :=
  ((walkVisited univ adj start).flatMap
    (fun v => (adj v).filter (fun u => decide (u ∈ faulty)))).dedup

theorem mem_collectReach (univ : Finset α) (adj : α → List α)
    (hadj : ∀ s, s ∉ univ → adj s = []) (faulty : List α) (start x : α) :
    x ∈ collectReach univ adj faulty start ↔
      x ∈ faulty ∧ Relation.TransGen (fun u v => v ∈ adj u) start x := by
  rw [collectReach, List.mem_dedup]
  simp only [List.mem_flatMap, List.mem_filter, decide_eq_true_eq]
  constructor
  · rintro ⟨v, hv, hxv, hxf⟩
    rw [mem_walkVisited univ adj hadj] at hv
    exact ⟨hxf, Relation.TransGen.tail' hv hxv⟩
  · rintro ⟨hxf, htrans⟩
    obtain ⟨v, hv, hedge⟩ := Relation.TransGen.tail'_iff.mp htrans
    exact ⟨v, (mem_walkVisited univ adj hadj start v).mpr hv, hedge, hxf⟩

theorem nodup_collectReach (univ : Finset α) (adj : α → List α)
    (faulty : List α) (start : α) :
    (collectReach univ adj faulty start).Nodup := by
  rw [collectReach]
  exact List.nodup_dedup _

end Walk

/-- One SUBSYSTEMS registry entry of fault_aggregator.py: id, display name,
priority and immediate upstream ids. -/
structure SubsystemDef where
  id : String
  name : String
  priority : ℕ
  upstream : List String
  deriving DecidableEq

/-- The subsystem registry, as an ordered list of entries (the module-level
SUBSYSTEMS dict; the tests patch it, so it is a parameter here). -/
abbrev Graph := List SubsystemDef

/-- Lookup of SUBSYSTEMS.get(sid, {}). -/
def findDef (g : Graph) (sid : String) : Option SubsystemDef :=
  g.find? (fun d => d.id == sid)

/-- SUBSYSTEMS.get(sid, {}).get(upstream, []). -/
def upstreamOf (g : Graph) (sid : String) : List String :=
  ((findDef g sid).map SubsystemDef.upstream).getD []

/-- SUBSYSTEMS.get(sid, {}).get(priority, 99). -/
def priorityOf (g : Graph) (sid : String) : ℕ :=
  ((findDef g sid).map SubsystemDef.priority).getD 99

/-- SUBSYSTEMS.get(sid, {}).get(name, sid). -/
def nameOf (g : Graph) (sid : String) : String :=
  ((findDef g sid).map SubsystemDef.name).getD sid

/-- The reverse_upstream_map entry for sid: ids of the registry entries that
list sid among their upstreams, in registry order. -/
def childrenOf (g : Graph) (sid : String) : List String :=
  (g.filter (fun d => d.upstream.contains sid)).map SubsystemDef.id

/-- All ids mentioned by the registry: entry ids and upstream mentions. -/
def idUniv (g : Graph) : Finset String :=
  (g.map SubsystemDef.id ++ g.flatMap SubsystemDef.upstream).toFinset

theorem upstreamOf_of_not_mem (g : Graph) (sid : String) (h : sid ∉ idUniv g) :
    upstreamOf g sid = [] := by
  have hfind : findDef g sid = none := by
    rw [findDef, List.find?_eq_none]
    intro d hd hbeq
    apply h
    rw [idUniv, List.mem_toFinset, List.mem_append]
    exact Or.inl (List.mem_map.mpr ⟨d, hd, by simpa using hbeq⟩)
  rw [upstreamOf, hfind]
  rfl

theorem childrenOf_of_not_mem (g : Graph) (sid : String) (h : sid ∉ idUniv g) :
    childrenOf g sid = [] := by
  rw [childrenOf]
  have : g.filter (fun d => d.upstream.contains sid) = [] := by
    rw [List.filter_eq_nil_iff]
    intro d hd hcont
    apply h
    rw [idUniv, List.mem_toFinset, List.mem_append]
    refine Or.inr (List.mem_flatMap.mpr ⟨d, hd, ?_⟩)
    exact List.elem_iff.mp hcont
  rw [this]
  rfl

/-- The found set of _collect_faulty_upstreams: faulty ids seen as an
upstream of an expanded node during the visited-set walk from sid. -/
def collectFaultyUpstreams (g : Graph) (faulty : List String) (sid : String) :
    List String :=
  collectReach (idUniv g) (upstreamOf g) faulty sid

/-- get_faulty_upstreams of fault_aggregator.py: the found set, deduplicated
(it is a set) and sorted by subsystem priority. -/
def get_faulty_upstreams (g : Graph) (faulty : List String) (sid : String) :
    List String :=
  List.insertionSort (fun a b => priorityOf g a ≤ priorityOf g b)
    (collectFaultyUpstreams g faulty sid)

/-- has_faulty_downstream of fault_aggregator.py: whether the visited-set
walk of the reverse upstream map from sid hits a faulty node (the recursive
early-return True is extensionally the nonemptiness of the hit set). -/
def has_faulty_downstream (g : Graph) (faulty : List String) (sid : String) : Bool :=
  !(collectReach (idUniv g) (childrenOf g) faulty sid).isEmpty

/-- FaultType of fault_aggregator.py. -/
inductive FaultType : Type where
  | root_cause : FaultType
  | cascade : FaultType
  | independent : FaultType
  deriving DecidableEq

/-- The per-subsystem fault-type decision of aggregate_faults: explicit rule
roots and cascades take priority, then the topology fallback (faulty
upstreams present means CASCADE with their sorted list, otherwise a faulty
downstream means ROOT_CAUSE, otherwise INDEPENDENT); the second component is
the deduplicated priority-sorted faulty-ancestor list used for the cascade
message. -/
def classifyFaultType (g : Graph) (faulty ruleRoots ruleCascades : List String)
    (sid : String) : FaultType × List String :=
  if sid ∈ ruleRoots then (FaultType.root_cause, [])
  else if sid ∈ ruleCascades then (FaultType.cascade, [])
  else
    let upstream_faults := get_faulty_upstreams g faulty sid
    if upstream_faults.isEmpty = false then (FaultType.cascade, upstream_faults)
    else if has_faulty_downstream g faulty sid then (FaultType.root_cause, [])
    else (FaultType.independent, [])

/-- One hop of the upstream relation: b is listed among the upstreams of a. -/
def UpstreamEdge (g : Graph) (a b : String) : Prop := b ∈ upstreamOf g a

/-- b is a (transitive) upstream ancestor of a. -/
def Ancestor (g : Graph) (a b : String) : Prop :=
  Relation.TransGen (UpstreamEdge g) a b

/-- One hop of the downstream relation: b is a registry entry listing a
among its upstreams. -/
def DownstreamEdge (g : Graph) (a b : String) : Prop :=
  b ∈ g.map SubsystemDef.id ∧ a ∈ upstreamOf g b

/-- b is a (transitive) downstream subsystem of a. -/
def Descendant (g : Graph) (a b : String) : Prop :=
  Relation.TransGen (DownstreamEdge g) a b

theorem findDef_of_mem (g : Graph) (hnodup : (g.map SubsystemDef.id).Nodup)
    (d : SubsystemDef) (hd : d ∈ g) : findDef g d.id = some d := by
  induction g with
  | nil => exact absurd hd (List.not_mem_nil d)
  | cons e t ih =>
    rw [List.map_cons, List.nodup_cons] at hnodup
    rcases List.mem_cons.mp hd with rfl | hdt
    · rw [findDef, List.find?_cons_of_pos _ (by simp)]
    · by_cases hid : e.id = d.id
      · exfalso
        apply hnodup.1
        rw [hid]
        exact List.mem_map.mpr ⟨d, hdt, rfl⟩
      · rw [findDef, List.find?_cons_of_neg _ (by simpa using hid)]
        exact ih hnodup.2 hdt

theorem mem_childrenOf_iff (g : Graph) (hnodup : (g.map SubsystemDef.id).Nodup)
    (a b : String) :
    b ∈ childrenOf g a ↔ DownstreamEdge g a b := by
  rw [childrenOf, DownstreamEdge, List.mem_map]
  constructor
  · rintro ⟨d, hd, rfl⟩
    rw [List.mem_filter] at hd
    refine ⟨List.mem_map.mpr ⟨d, hd.1, rfl⟩, ?_⟩
    rw [upstreamOf, findDef_of_mem g hnodup d hd.1]
    exact List.elem_iff.mp hd.2
  · rintro ⟨hb, ha⟩
    rw [upstreamOf] at ha
    cases hfind : findDef g b with
    | none => rw [hfind] at ha; exact absurd ha (List.not_mem_nil a)
    | some d =>
      rw [hfind] at ha
      have hdg : d ∈ g := List.mem_of_find?_eq_some hfind
      have hdid : d.id = b := by
        have := List.find?_some hfind
        simpa using this
      refine ⟨d, ?_, hdid⟩
      rw [List.mem_filter]
      exact ⟨hdg, List.elem_iff.mpr ha⟩

theorem transGen_congr {β : Type} {r q : β → β → Prop}
    (h : ∀ a b, r a b ↔ q a b) (a b : β) :
    Relation.TransGen r a b ↔ Relation.TransGen q a b :=
  ⟨fun hr => Relation.TransGen.mono (fun u v hu => (h u v).mp hu) hr,
   fun hq => Relation.TransGen.mono (fun u v hu => (h u v).mpr hu) hq⟩

theorem mem_collectFaultyUpstreams (g : Graph) (faulty : List String)
    (sid x : String) :
    x ∈ collectFaultyUpstreams g faulty sid ↔ x ∈ faulty ∧ Ancestor g sid x := by
  rw [collectFaultyUpstreams,
    mem_collectReach (idUniv g) (upstreamOf g) (upstreamOf_of_not_mem g) faulty sid x]
  rfl

theorem mem_get_faulty_upstreams (g : Graph) (faulty : List String) (sid x : String) :
    x ∈ get_faulty_upstreams g faulty sid ↔ x ∈ faulty ∧ Ancestor g sid x := by
  rw [get_faulty_upstreams]
  rw [(List.perm_insertionSort (fun a b => priorityOf g a ≤ priorityOf g b)
    (collectFaultyUpstreams g faulty sid)).mem_iff]
  exact mem_collectFaultyUpstreams g faulty sid x

theorem has_faulty_downstream_iff (g : Graph) (hnodup : (g.map SubsystemDef.id).Nodup)
    (faulty : List String) (sid : String) :
    has_faulty_downstream g faulty sid = true ↔
      ∃ d, d ∈ faulty ∧ Descendant g sid d := by
  constructor
  · intro h
    have hne : collectReach (idUniv g) (childrenOf g) faulty sid ≠ [] := by
      intro hnil
      rw [has_faulty_downstream, hnil] at h
      simp at h
    obtain ⟨x, hx⟩ := List.exists_mem_of_ne_nil _ hne
    rw [mem_collectReach (idUniv g) (childrenOf g) (childrenOf_of_not_mem g) faulty sid x]
      at hx
    refine ⟨x, hx.1, ?_⟩
    rw [Descendant, ← transGen_congr (mem_childrenOf_iff g hnodup) sid x]
    exact hx.2
  · rintro ⟨d, hdf, hdd⟩
    have hd : d ∈ collectReach (idUniv g) (childrenOf g) faulty sid := by
      rw [mem_collectReach (idUniv g) (childrenOf g) (childrenOf_of_not_mem g) faulty sid d]
      refine ⟨hdf, ?_⟩
      rw [Descendant, ← transGen_congr (mem_childrenOf_iff g hnodup) sid d] at hdd
      exact hdd
    rw [has_faulty_downstream]
    cases hl : collectReach (idUniv g) (childrenOf g) faulty sid with
    | nil => rw [hl] at hd; exact absurd hd (List.not_mem_nil d)
    | cons a t => rfl

/-- Diamond registry of the spec example: leaf has upstreams mid_a and
mid_b, each with upstream top. -/
def diamondGraph : Graph :=
  [⟨"top", "Top", 1, []⟩,
   ⟨"mid_a", "MidA", 2, ["top"]⟩,
   ⟨"mid_b", "MidB", 2, ["top"]⟩,
   ⟨"leaf", "Leaf", 3, ["mid_a", "mid_b"]⟩]

/-- All four diamond subsystems faulting. -/
def diamondFaulty : List String := ["top", "mid_a", "mid_b", "leaf"]

/-- Pure two-element cycle: A upstream of B and B upstream of A. -/
def cycleGraph : Graph :=
  [⟨"A", "SubA", 1, ["B"]⟩,
   ⟨"B", "SubB", 1, ["A"]⟩]

/-- C5: for a faulting subsystem not covered by a causal rule, the topology
fallback classifies it CASCADE exactly when it has a faulting (transitive)
upstream ancestor, its message list enumerates exactly the distinct faulting
ancestors without duplicates ordered by ancestor priority, and with no
faulting ancestor it is ROOT_CAUSE exactly when some transitive downstream
subsystem is faulting and INDEPENDENT otherwise; in the all-faulty diamond,
leaf is CASCADE with a message naming Top, MidA and MidB exactly once
each. -/
theorem C5_topology_classification (g : Graph) (faulty ruleRoots ruleCascades : List String)
    (sid : String) (hnodup : (g.map SubsystemDef.id).Nodup)
    (hr : sid ∉ ruleRoots) (hc : sid ∉ ruleCascades) :
    (((classifyFaultType g faulty ruleRoots ruleCascades sid).1 = FaultType.cascade ↔
        ∃ u, u ∈ faulty ∧ Ancestor g sid u) ∧
     (∀ u, u ∈ (classifyFaultType g faulty ruleRoots ruleCascades sid).2 ↔
        u ∈ faulty ∧ Ancestor g sid u) ∧
     (classifyFaultType g faulty ruleRoots ruleCascades sid).2.Nodup ∧
     List.Sorted (fun a b => priorityOf g a ≤ priorityOf g b)
       (classifyFaultType g faulty ruleRoots ruleCascades sid).2 ∧
     ((classifyFaultType g faulty ruleRoots ruleCascades sid).1 = FaultType.root_cause ↔
        (¬ ∃ u, u ∈ faulty ∧ Ancestor g sid u) ∧ ∃ d, d ∈ faulty ∧ Descendant g sid d) ∧
     ((classifyFaultType g faulty ruleRoots ruleCascades sid).1 = FaultType.independent ↔
        (¬ ∃ u, u ∈ faulty ∧ Ancestor g sid u) ∧ ¬ ∃ d, d ∈ faulty ∧ Descendant g sid d)) ∧
    ((classifyFaultType diamondGraph diamondFaulty [] [] "leaf").1 = FaultType.cascade ∧
     ((classifyFaultType diamondGraph diamondFaulty [] [] "leaf").2.map
        (nameOf diamondGraph)).count "Top" = 1 ∧
     ((classifyFaultType diamondGraph diamondFaulty [] [] "leaf").2.map
        (nameOf diamondGraph)).count "MidA" = 1 ∧
     ((classifyFaultType diamondGraph diamondFaulty [] [] "leaf").2.map
        (nameOf diamondGraph)).count "MidB" = 1 ∧
     ((classifyFaultType diamondGraph diamondFaulty [] [] "leaf").2.map
        (nameOf diamondGraph)).length = 3) := by
  have hcl : classifyFaultType g faulty ruleRoots ruleCascades sid =
      (if (get_faulty_upstreams g faulty sid).isEmpty = false then
        (FaultType.cascade, get_faulty_upstreams g faulty sid)
      else if has_faulty_downstream g faulty sid then (FaultType.root_cause, [])
      else (FaultType.independent, [])) := by
    rw [classifyFaultType, if_neg hr, if_neg hc]
  refine ⟨?_, by decide⟩
  by_cases hupnil : get_faulty_upstreams g faulty sid = []
  · have hemp : (get_faulty_upstreams g faulty sid).isEmpty = true := by
      rw [hupnil]
      rfl
    have hno : ¬ ∃ u, u ∈ faulty ∧ Ancestor g sid u := by
      rintro ⟨u, hu1, hu2⟩
      have := (mem_get_faulty_upstreams g faulty sid u).mpr ⟨hu1, hu2⟩
      rw [hupnil] at this
      exact List.not_mem_nil u this
    rw [hcl, if_neg (by rw [hemp]; simp)]
    by_cases hdown : has_faulty_downstream g faulty sid = true
    · rw [if_pos hdown]
      refine ⟨?_, ?_, List.nodup_nil, List.sorted_nil, ?_, ?_⟩
      · exact ⟨fun h => FaultType.noConfusion h, fun hx => absurd hx hno⟩
      · intro u
        simp only [List.not_mem_nil, false_iff]
        rintro ⟨hu1, hu2⟩
        exact hno ⟨u, hu1, hu2⟩
      · exact ⟨fun _ => ⟨hno, (has_faulty_downstream_iff g hnodup faulty sid).mp hdown⟩,
          fun _ => rfl⟩
      · refine ⟨fun h => FaultType.noConfusion h, ?_⟩
        rintro ⟨_, hnd⟩
        exact absurd ((has_faulty_downstream_iff g hnodup faulty sid).mp hdown) hnd
    · rw [if_neg hdown]
      have hnodown : ¬ ∃ d, d ∈ faulty ∧ Descendant g sid d := by
        intro hd
        exact hdown ((has_faulty_downstream_iff g hnodup faulty sid).mpr hd)
      refine ⟨?_, ?_, List.nodup_nil, List.sorted_nil, ?_, ?_⟩
      · exact ⟨fun h => FaultType.noConfusion h, fun hx => absurd hx hno⟩
      · intro u
        simp only [List.not_mem_nil, false_iff]
        rintro ⟨hu1, hu2⟩
        exact hno ⟨u, hu1, hu2⟩
      · refine ⟨fun h => FaultType.noConfusion h, ?_⟩
        rintro ⟨_, hd⟩
        exact absurd hd hnodown
      · exact ⟨fun _ => ⟨hno, hnodown⟩, fun _ => rfl⟩
  · have hemp : (get_faulty_upstreams g faulty sid).isEmpty = false := by
      cases hl : get_faulty_upstreams g faulty sid with
      | nil => exact absurd hl hupnil
      | cons a t => rfl
    have hex : ∃ u, u ∈ faulty ∧ Ancestor g sid u := by
      obtain ⟨u, hu⟩ := List.exists_mem_of_ne_nil _ hupnil
      exact ⟨u, (mem_get_faulty_upstreams g faulty sid u).mp hu⟩
    rw [hcl, if_pos hemp]
    haveI htot : IsTotal String (fun a b => priorityOf g a ≤ priorityOf g b) :=
      ⟨fun a b => Nat.le_total _ _⟩
    haveI htra : IsTrans String (fun a b => priorityOf g a ≤ priorityOf g b) :=
      ⟨fun a b c hab hbc => le_trans hab hbc⟩
    refine ⟨⟨fun _ => hex, fun _ => rfl⟩, ?_, ?_, ?_, ?_, ?_⟩
    · intro u
      exact mem_get_faulty_upstreams g faulty sid u
    · rw [get_faulty_upstreams]
      rw [(List.perm_insertionSort (fun a b => priorityOf g a ≤ priorityOf g b)
        (collectFaultyUpstreams g faulty sid)).nodup_iff]
      exact nodup_collectReach _ _ _ _
    · rw [get_faulty_upstreams]
      exact List.sorted_insertionSort _ _
    · refine ⟨fun h => FaultType.noConfusion h, ?_⟩
      rintro ⟨hn, _⟩
      exact absurd hex hn
    · refine ⟨fun h => FaultType.noConfusion h, ?_⟩
      rintro ⟨hn, _⟩
      exact absurd hex hn

/-- C5 witness: the general classification facts applied to the diamond
instance. -/
theorem C5_topology_classification_witness :
    (classifyFaultType diamondGraph diamondFaulty [] [] "leaf").2.Nodup ∧
    List.Sorted (fun a b => priorityOf diamondGraph a ≤ priorityOf diamondGraph b)
      (classifyFaultType diamondGraph diamondFaulty [] [] "leaf").2 :=
  ⟨(C5_topology_classification diamondGraph diamondFaulty [] [] "leaf" (by decide)
      (List.not_mem_nil _) (List.not_mem_nil _)).1.2.2.1,
   (C5_topology_classification diamondGraph diamondFaulty [] [] "leaf" (by decide)
      (List.not_mem_nil _) (List.not_mem_nil _)).1.2.2.2.1⟩

/-- C6: the visited-set walk is fuel-invariant above the step bound on every
graph (cyclic ones included), so both traversals terminate with a defined
answer; every id the upstream walk reports is faulting; and on the pure
two-element cycle with both ends faulting and no rule involved, both ends
classify as CASCADE, so they are not both ROOT_CAUSE. -/
theorem C6_cycle_termination :
    (∀ (univ : Finset String) (adj : String → List String) (stack vis : List String)
        (fuel fuel2 : ℕ),
      (∀ s, s ∉ univ → adj s = []) →
      walkMeasure univ adj stack vis < fuel →
      walkMeasure univ adj stack vis < fuel2 →
      ∀ x, x ∈ walkF adj fuel stack vis ↔ x ∈ walkF adj fuel2 stack vis) ∧
    (∀ (g : Graph) (faulty : List String) (sid u : String),
      u ∈ get_faulty_upstreams g faulty sid → u ∈ faulty) ∧
    (classifyFaultType cycleGraph ["A", "B"] [] [] "A").1 = FaultType.cascade ∧
    (classifyFaultType cycleGraph ["A", "B"] [] [] "B").1 = FaultType.cascade ∧
    ¬ ((classifyFaultType cycleGraph ["A", "B"] [] [] "A").1 = FaultType.root_cause ∧
       (classifyFaultType cycleGraph ["A", "B"] [] [] "B").1 = FaultType.root_cause) := by
  refine ⟨?_, ?_, by decide, by decide, by decide⟩
  · intro univ adj stack vis fuel fuel2 hadj h1 h2 x
    rw [mem_walkF univ adj hadj fuel stack vis h1 x,
      mem_walkF univ adj hadj fuel2 stack vis h2 x]
  · intro g faulty sid u hu
    exact ((mem_get_faulty_upstreams g faulty sid u).mp hu).1

/-- C6 witness: the termination and soundness facts instantiated on the
cyclic and diamond graphs. -/
theorem C6_cycle_termination_witness :
    "B" ∈ ["A", "B"] ∧
    ("top" ∈ walkF (upstreamOf diamondGraph) 20 ["leaf"] [] ↔
      "top" ∈ walkF (upstreamOf diamondGraph) 30 ["leaf"] []) :=
  ⟨C6_cycle_termination.2.1 cycleGraph ["A", "B"] "A" "B" (by decide),
   C6_cycle_termination.1 (idUniv diamondGraph) (upstreamOf diamondGraph) ["leaf"] [] 20 30
     (fun s h => upstreamOf_of_not_mem diamondGraph s h) (by decide) (by decide) "top"⟩

end FaultAggregator

end SensorGuard
